import Mathlib

/-!
Verification of the metrics aggregation and visualization pipeline in
reports/scripts/generate_reports.py.

The Python functions are shallowly embedded: strings become List Char,
Python ints become Nat or Int as appropriate, and Python floats / Decimal
values are idealized as exact rationals (ℚ).  Regular-expression searches
used by the duration parser are embedded as explicit left-to-right scanners
with the same leftmost-match semantics.
-/

set_option maxRecDepth 100000

/-- Numeric value of a decimal digit character (int() of a one-digit string). -/
def digitVal (c : Char) : Nat := c.toNat - 48

/-- Decimal digit characters of a natural number, most significant first.
This is how Python renders a non-negative int in an f-string. -/
def natDigits (n : Nat) : List Char :=
  if n < 10 then [Char.ofNat (48 + n)]
  else natDigits (n / 10) ++ [Char.ofNat (48 + n % 10)]
decreasing_by exact Nat.div_lt_self (by omega) (by omega)

/-- Value of a string of decimal digits, as computed by Python int(). -/
def digitsToNat (ds : List Char) : Nat :=
  ds.foldl (fun a c => 10 * a + digitVal c) 0

/-- Engine for the embedding of re.search(r"(\d+)u", s) where u is a fixed
non-digit unit character: scan left to right; run = some acc means the scan
is inside a run of digits whose accumulated value is acc.  At the first
non-digit character after a run, the match succeeds exactly when that
character is u (the regex backtracks only within a digit run, and a shorter
suffix of a run still ends in a digit, so leftmost-match semantics reduce to
this scan). -/
def scanNum (u : Char) (run : Option Nat) (s : List Char) : Option Nat :=
  match s with
  | [] => none
  | c :: rest =>
    if c.isDigit then
      match run with
      | some acc => scanNum u (some (10 * acc + digitVal c)) rest
      | none => scanNum u (some (digitVal c)) rest
    else
      match run with
      | some acc => if c = u then some acc else scanNum u none rest
      | none => scanNum u none rest

/-- Embedding of re.search(r"(\d+)u", s): value of the captured group of the
leftmost match, if any. -/
def searchNumUnit (u : Char) (s : List Char) : Option Nat := scanNum u none s

/-- Embedding of parse_duration_to_seconds (lines 160-181): add 60 times the
minutes component matched by r"(\d+)m" (0 when absent) and the seconds
component matched by r"(\d+)s" (0 when absent). -/
def parse_duration_to_seconds (duration_str : List Char) : Nat :=
  (match searchNumUnit 'm' duration_str with
   | some n => n * 60
   | none => 0) +
  (match searchNumUnit 's' duration_str with
   | some n => n
   | none => 0)

/-- Embedding of seconds_to_duration_str (lines 184-201). -/
def seconds_to_duration_str (seconds : Nat) : List Char :=
  let minutes := seconds / 60
  let remaining_seconds := seconds % 60
  if minutes > 0 ∧ remaining_seconds > 0 then
    natDigits minutes ++ 'm' :: (natDigits remaining_seconds ++ ['s'])
  else if minutes > 0 then
    natDigits minutes ++ ['m']
  else
    natDigits remaining_seconds ++ ['s']

/-- A string contains a component of the duration grammar: some non-empty run
of digit characters immediately followed by the unit character u. -/
def hasNumUnit (u : Char) (s : List Char) : Prop :=
  ∃ pre ds post, s = pre ++ ds ++ u :: post ∧ ds ≠ [] ∧ ∀ c ∈ ds, c.isDigit

/-- Python substring containment test: pat in s. -/
def isSubstr (pat : List Char) : List Char → Bool
  | [] => pat.isEmpty
  | c :: rest => pat.isPrefixOf (c :: rest) || isSubstr pat rest

/-- One iteration of the threshold-normalization loop in parse_k6_script
(lines 258-265).  The accumulator is the pair of slots of the thresholds
dict: the "p95" slot (keys containing "duration") and the "error_rate" slot
(keys containing "failed", tested only when the "duration" test failed,
because of the elif). -/
def threshold_step (acc : Option (List Char) × Option (List Char))
    (kv : List Char × List Char) : Option (List Char) × Option (List Char) :=
  if isSubstr ("duration".data) kv.1 then (some kv.2, acc.2)
  else if isSubstr ("failed".data) kv.1 then (acc.1, some kv.2)
  else acc

/-- The full threshold-extraction loop of parse_k6_script, over the (key,
value) pairs produced by the threshold regex in textual order. -/
def extract_thresholds (ms : List (List Char × List Char)) :
    Option (List Char) × Option (List Char) :=
  ms.foldl threshold_step (none, none)

/-- Modelled from the spec's words (for comparison with the code): the value
of the LAST key in textual order that maps to the latency-percentile kind
(contains "duration"). -/
def lastDurationValue : List (List Char × List Char) → Option (List Char)
  | [] => none
  | kv :: rest =>
    match lastDurationValue rest with
    | some v => some v
    | none => if isSubstr ("duration".data) kv.1 then some kv.2 else none

/-- Modelled from the spec's words (for comparison with the code): the value
of the LAST key in textual order that maps to the failure-rate kind
(contains "failed" and, because of the elif in the code, does not contain
"duration"). -/
def lastFailedValue : List (List Char × List Char) → Option (List Char)
  | [] => none
  | kv :: rest =>
    match lastFailedValue rest with
    | some v => some v
    | none =>
      if isSubstr ("failed".data) kv.1 && !isSubstr ("duration".data) kv.1 then
        some kv.2
      else none

/-- Embedding of the error_rate computation in collect_k6_metrics (lines
385-392): failed_requests / total_requests when total_requests > 0, else
exactly 0.  Python ints are embedded as ℤ and the Decimal division as exact
division in ℚ. -/
def k6_error_rate (failed_requests total_requests : ℤ) : ℚ :=
  if total_requests > 0 then (failed_requests : ℚ) / (total_requests : ℚ)
  else 0

/-- Per-pod resource metrics (dataclass PodResourceMetrics, lines 84-92). -/
structure PodResourceMetrics where
  pod_name : String
  avg_cpu_millicores : ℚ
  max_cpu_millicores : ℚ
  avg_memory_mb : ℚ
  max_memory_mb : ℚ
deriving DecidableEq

/-- Cumulative resource metrics (dataclass CumulativeResourceMetrics,
lines 95-102). -/
structure CumulativeResourceMetrics where
  avg_cpu_millicores : ℚ
  max_cpu_millicores : ℚ
  avg_memory_mb : ℚ
  max_memory_mb : ℚ
deriving DecidableEq

/-- Python dict assignment d[k] = v on an insertion-ordered association
list: overwrite in place when the key exists, else append. -/
def dictSet {α : Type} (m : List (String × α)) (k : String) (v : α) :
    List (String × α) :=
  if m.any (fun kv => kv.1 == k) then
    m.map (fun kv => if kv.1 == k then (k, v) else kv)
  else m ++ [(k, v)]

/-- The pods dict built by collect_pod_metrics (lines 429-443) from the CPU
and memory query results, each a list of (pod label, value) in result order:
CPU results seed (cpu, 0) entries, memory results fill the mem field or
create (0, mem) entries. -/
def build_pods (cpu_results mem_results : List (String × ℚ)) :
    List (String × ℚ × ℚ) :=
  let pods := cpu_results.foldl (fun m nv => dictSet m nv.1 (nv.2, (0 : ℚ))) []
  mem_results.foldl
    (fun m nv =>
      match m.lookup nv.1 with
      | some cm => dictSet m nv.1 (cm.1, nv.2)
      | none => dictSet m nv.1 ((0 : ℚ), nv.2))
    pods

/-- Python string ≤, used to model sorted(). -/
def string_le (a b : String) : Bool := decide (a ≤ b)

/-- pod_metrics list (lines 445-454): pods sorted by name; for each, avg and
max fields are both set to the single observed value. -/
def pod_metrics_from (pods : List (String × ℚ × ℚ)) :
    List PodResourceMetrics :=
  (pods.mergeSort (fun a b => string_le a.1 b.1)).map
    (fun ncm => ⟨ncm.1, ncm.2.1, ncm.2.1, ncm.2.2, ncm.2.2⟩)

/-- Cumulative metrics (lines 456-467): total_cpu and total_mem are sums of
the per-pod averages; the cumulative max fields are set to those same sums
(the max_cpu / max_mem locals computed in the code are unused there). -/
def cumulative_from (pod_metrics : List PodResourceMetrics) :
    CumulativeResourceMetrics :=
  let total_cpu := pod_metrics.foldl (fun a p => a + p.avg_cpu_millicores) 0
  let total_mem := pod_metrics.foldl (fun a p => a + p.avg_memory_mb) 0
  ⟨total_cpu, total_cpu, total_mem, total_mem⟩

/-- Embedding of collect_pod_metrics (lines 406-472), from the two
instantaneous query results to the (pod metrics, cumulative) pair. -/
def collect_pod_metrics (cpu_results mem_results : List (String × ℚ)) :
    List PodResourceMetrics × CumulativeResourceMetrics :=
  let pod_metrics := pod_metrics_from (build_pods cpu_results mem_results)
  (pod_metrics, cumulative_from pod_metrics)

/-- A single point of a time series (dataclass TimeSeriesPoint, lines
105-110); float fields idealized as ℚ. -/
structure TimeSeriesPoint where
  timestamp : ℚ
  value : ℚ
deriving DecidableEq

/-- A k6 stage (dataclass K6Stage, lines 51-56). -/
structure K6Stage where
  duration : List Char
  target : ℤ
deriving DecidableEq

/-- A VU stage with absolute timestamps (dataclass VUStage, lines 133-139). -/
structure VUStage where
  start_timestamp : ℚ
  end_timestamp : ℚ
  vus : ℤ
deriving DecidableEq

/-- Embedding of calculate_vu_stages (lines 282-309): walk the stages in
order from the anchor time, each window spanning the stage's parsed
duration.  Times are seconds since epoch as ℚ (datetime arithmetic is exact
at this granularity). -/
def calculate_vu_stages (test_start_time : ℚ) (stages : List K6Stage) :
    List VUStage :=
  match stages with
  | [] => []
  | stage :: rest =>
    let duration_seconds := (parse_duration_to_seconds stage.duration : ℚ)
    let end_time := test_start_time + duration_seconds
    ⟨test_start_time, end_time, stage.target⟩ ::
      calculate_vu_stages end_time rest

/-- test_duration_seconds from main (lines 1334-1336): sum of the parsed
stage durations. -/
def test_duration_seconds (stages : List K6Stage) : Nat :=
  stages.foldl (fun a s => a + parse_duration_to_seconds s.duration) 0

/-- Python max(p.timestamp for p in ps); only used on non-empty series. -/
def max_timestamp (ps : List TimeSeriesPoint) : ℚ :=
  match ps with
  | [] => 0
  | p :: rest => rest.foldl (fun a q => max a q.timestamp) p.timestamp

/-- Embedding of the VU-stage anchor resolution in main (lines 1320-1342),
given that a test plan was parsed: use the detected k6 activity start when
available; otherwise, for a non-empty cumulative CPU series, anchor at the
series' latest timestamp minus the plan's total duration; otherwise produce
no stage windows. -/
def resolve_vu_stages (k6_time_range : Option (ℚ × ℚ))
    (cumulative_cpu : List TimeSeriesPoint) (stages : List K6Stage) :
    List VUStage :=
  match k6_time_range with
  | some se => calculate_vu_stages se.1 stages
  | none =>
    if cumulative_cpu.isEmpty then []
    else
      calculate_vu_stages
        (max_timestamp cumulative_cpu - (test_duration_seconds stages : ℚ))
        stages

/-- Sum of the parsed durations of the first i stages, as ℚ. -/
def prefix_duration (stages : List K6Stage) (i : ℕ) : ℚ :=
  ((stages.take i).map
    (fun s => (parse_duration_to_seconds s.duration : ℚ))).sum

/-- Graph canvas constants (SVGGraphGenerator, lines 702-710). -/
def WIDTH : ℤ := 900

def HEIGHT : ℤ := 320

def MARGIN_LEFT : ℤ := 60

def MARGIN_RIGHT : ℤ := 20

def MARGIN_TOP : ℤ := 50

def MARGIN_BOTTOM : ℤ := 50

def GRAPH_WIDTH : ℤ := WIDTH - MARGIN_LEFT - MARGIN_RIGHT

def GRAPH_HEIGHT : ℤ := HEIGHT - MARGIN_TOP - MARGIN_BOTTOM

/-- _round_to_nearest (lines 721-724): int((value + step - 1) // step * step)
with Python // being floor division; the quotient is integral, so the final
int() is exact. -/
def round_to_nearest (value : ℚ) (step : ℤ) : ℤ :=
  ⌊(value + (step : ℚ) - 1) / (step : ℚ)⌋ * step

/-- The all_values list of generate_resource_graph (lines 768-770):
cumulative values extended with every per-pod series' values, in dict
order. -/
def all_values_of (cumulative_points : List TimeSeriesPoint)
    (per_pod_data : List (String × List TimeSeriesPoint)) : List ℚ :=
  per_pod_data.foldl (fun acc nv => acc ++ nv.2.map (fun p => p.value))
    (cumulative_points.map (fun p => p.value))

/-- max_value (line 771): max(all_values) if all_values else 10. -/
def max_value_of (cumulative_points : List TimeSeriesPoint)
    (per_pod_data : List (String × List TimeSeriesPoint)) : ℚ :=
  match all_values_of cumulative_points per_pod_data with
  | [] => 10
  | v :: vs => vs.foldl max v

/-- y_max (lines 772-774): the 1.1 headroom factor is the rational 11/10. -/
def y_max_of (cumulative_points : List TimeSeriesPoint)
    (per_pod_data : List (String × List TimeSeriesPoint)) : ℤ :=
  let y := round_to_nearest
    (max_value_of cumulative_points per_pod_data * (11 / 10)) 10
  if y = 0 then 10 else y

/-- to_svg_x (lines 777-778). -/
def to_svg_x (min_time time_range : ℚ) (timestamp : ℚ) : ℚ :=
  (MARGIN_LEFT : ℚ) +
    ((timestamp - min_time) / time_range) * (GRAPH_WIDTH : ℚ)

/-- to_svg_y (lines 780-781). -/
def to_svg_y (y_max : ℤ) (value : ℚ) : ℚ :=
  (MARGIN_TOP : ℚ) + (GRAPH_HEIGHT : ℚ) -
    (value / (y_max : ℚ)) * (GRAPH_HEIGHT : ℚ)

/-- Modelled from the spec's words (for comparison with the code): scale the
maximum by 1.1 and round UP to the next multiple of 10 (a true ceiling),
substituting 10 when that rounding yields 0. -/
def y_max_spec (cumulative_points : List TimeSeriesPoint)
    (per_pod_data : List (String × List TimeSeriesPoint)) : ℤ :=
  let r := 10 * ⌈max_value_of cumulative_points per_pod_data * (11 / 10) / 10⌉
  if r = 0 then 10 else r

/-- Decimal string of a natural number. -/
def natStr (n : ℕ) : String := String.mk (natDigits n)

/-- Python rendering of an int in an f-string. -/
def intStr (n : ℤ) : String :=
  if n < 0 then "-" ++ natStr n.natAbs else natStr n.natAbs

/-- Round to the nearest integer, ties to even (the rounding used by Python
float formatting, on the idealized exact rational value). -/
def roundHalfEven (q : ℚ) : ℤ :=
  if q - ⌊q⌋ < 1 / 2 then ⌊q⌋
  else if 1 / 2 < q - ⌊q⌋ then ⌊q⌋ + 1
  else if 2 ∣ ⌊q⌋ then ⌊q⌋ else ⌊q⌋ + 1

/-- Python format(x, ".1f") on the idealized rational value: one digit after
the decimal point.  Also models the f-string rendering of the constant float
halves WIDTH / 2 and HEIGHT / 2, whose Python repr ("450.0", "160.0") has
exactly one decimal digit. -/
def fmt1 (x : ℚ) : String :=
  let n := roundHalfEven (x * 10)
  let core := natStr (n.natAbs / 10) ++ "." ++ natStr (n.natAbs % 10)
  if n < 0 then "-" ++ core else core

/-- Two-digit zero-padded rendering. -/
def pad2 (n : ℕ) : String := if n < 10 then "0" ++ natStr n else natStr n

/-- strftime("%H:%M") in UTC of an epoch timestamp
(datetime.fromtimestamp(ts, tz=timezone.utc)). -/
def hhmm (ts : ℚ) : String :=
  pad2 ((⌊ts⌋.emod 86400).toNat / 3600) ++ ":" ++
    pad2 ((⌊ts⌋.emod 3600).toNat / 60)

/-- Python int() truncation toward zero of a float. -/
def py_int (q : ℚ) : ℤ := q.num.tdiv (q.den : ℤ)

/-- Color constants (lines 712-719). -/
def FOO_COLORS : List String := ["#8b5cf6", "#a78bfa", "#c4b5fd"]

def BAR_COLORS : List String := ["#22c55e", "#4ade80", "#86efac"]

def CUMULATIVE_COLOR : String := "#3b82f6"

def CUMULATIVE_FILL : String := "#93c5fd"

def VU_BG_COLORS : List String := ["#fafafa", "#f5f5f5"]

/-- Python p.lower() as a character list. -/
def lower_data (s : String) : List Char := s.data.map Char.toLower

/-- foo_pods (line 845): sorted pod names containing "foo" (lowercased). -/
def foo_pods_of (keys : List String) : List String :=
  (keys.filter (fun p => isSubstr ("foo".data) (lower_data p))).mergeSort
    (fun a b => string_le a b)

/-- bar_pods (line 846): sorted pod names containing "bar" (lowercased). -/
def bar_pods_of (keys : List String) : List String :=
  (keys.filter (fun p => isSubstr ("bar".data) (lower_data p))).mergeSort
    (fun a b => string_le a b)

/-- other_pods (line 847): sorted pod names in neither of the other groups. -/
def other_pods_of (keys : List String) : List String :=
  (keys.filter (fun p =>
    !(foo_pods_of keys).contains p && !(bar_pods_of keys).contains p)).mergeSort
    (fun a b => string_le a b)

/-- legend_items (lines 905-909): the cumulative entry, then one entry per
non-empty marker group, each with the group's first palette color (palette
indexing [0] on the fixed non-empty palettes is modelled totally by getD). -/
def legend_items (keys : List String) : List (String × String) :=
  [("Cumulative", CUMULATIVE_COLOR)] ++
    (if (foo_pods_of keys).isEmpty then []
     else [("foo pods", FOO_COLORS.getD 0 "")]) ++
    (if (bar_pods_of keys).isEmpty then []
     else [("bar pods", BAR_COLORS.getD 0 "")])

/-- The legend loop (lines 911-919): each item appends a swatch rect and a
text label, advancing legend_x by 7 per label character plus 40. -/
def legend_parts (items : List (String × String)) : List String :=
  (items.foldl
    (fun (acc : ℤ × List String) item =>
      (acc.1 + (item.1.length : ℤ) * 7 + 40,
       acc.2 ++
         ["<rect x=\"" ++ intStr acc.1 ++ "\" y=\"" ++
            intStr (HEIGHT - 15 - 8) ++
            "\" width=\"12\" height=\"12\" fill=\"" ++ item.2 ++
            "\" rx=\"2\"/>",
          "<text x=\"" ++ intStr (acc.1 + 16) ++ "\" y=\"" ++
            intStr (HEIGHT - 15) ++
            "\" font-size=\"11\" fill=\"#666\">" ++ item.1 ++ "</text>"]))
    (MARGIN_LEFT, [])).2

/-- The rendered legend block. -/
def legend_render (items : List (String × String)) : String :=
  String.join (legend_parts items)

/-- One VU-stage background band with its label (lines 791-808); stages
fully outside the visible range contribute nothing. -/
def stage_band_parts (min_time max_time time_range : ℚ) (i : ℕ)
    (stage : VUStage) : List String :=
  if stage.start_timestamp ≥ max_time ∨ stage.end_timestamp ≤ min_time then []
  else
    let start_x := to_svg_x min_time time_range (max stage.start_timestamp min_time)
    let end_x := to_svg_x min_time time_range (min stage.end_timestamp max_time)
    let bg_color := VU_BG_COLORS.getD (i % VU_BG_COLORS.length) ""
    let mid_x := (start_x + end_x) / 2
    ["<rect x=\"" ++ fmt1 start_x ++ "\" y=\"" ++ intStr MARGIN_TOP ++
       "\" width=\"" ++ fmt1 (end_x - start_x) ++ "\" height=\"" ++
       intStr GRAPH_HEIGHT ++ "\" fill=\"" ++ bg_color ++ "\"/>",
     "<text x=\"" ++ fmt1 mid_x ++ "\" y=\"" ++ intStr (MARGIN_TOP - 8) ++
       "\" text-anchor=\"middle\" font-size=\"10\" fill=\"#888\">" ++
       intStr stage.vus ++ " VUs</text>"]

/-- The horizontal grid lines with labels (lines 810-823); num_y_lines = 5. -/
def grid_parts (ymax : ℤ) : List String :=
  ((List.range (5 + 1)).map (fun i =>
    let y_val : ℚ := ((i : ℚ) / 5) * (ymax : ℚ)
    let y_pos := to_svg_y ymax y_val
    ["<line x1=\"" ++ intStr MARGIN_LEFT ++ "\" y1=\"" ++ fmt1 y_pos ++
       "\" x2=\"" ++ intStr (WIDTH - MARGIN_RIGHT) ++ "\" y2=\"" ++
       fmt1 y_pos ++ "\" stroke=\"#e5e5e5\" stroke-width=\"1\"/>",
     "<text x=\"" ++ intStr (MARGIN_LEFT - 8) ++ "\" y=\"" ++
       fmt1 (y_pos + 4) ++
       "\" text-anchor=\"end\" font-size=\"11\" fill=\"#888\">" ++
       intStr (py_int y_val) ++ "</text>"])).flatten

/-- The M/L path of a polyline through the given points (lines 827-829 and
861-863). -/
def path_data_of (min_time time_range : ℚ) (ymax : ℤ)
    (points : List TimeSeriesPoint) : String :=
  match points with
  | [] => ""
  | p :: rest =>
    rest.foldl
      (fun acc q => acc ++ " L " ++
        fmt1 (to_svg_x min_time time_range q.timestamp) ++ "," ++
        fmt1 (to_svg_y ymax q.value))
      ("M " ++ fmt1 (to_svg_x min_time time_range p.timestamp) ++ "," ++
        fmt1 (to_svg_y ymax p.value))

/-- The cumulative filled area and line (lines 825-842). -/
def cumulative_parts (min_time time_range : ℚ) (ymax : ℤ)
    (points : List TimeSeriesPoint) : List String :=
  match points with
  | [] => []
  | p :: rest =>
    let path_data := path_data_of min_time time_range ymax (p :: rest)
    let lastP := (p :: rest).getLast (List.cons_ne_nil p rest)
    let fill_path := path_data ++ " L " ++
      fmt1 (to_svg_x min_time time_range lastP.timestamp) ++ "," ++
      fmt1 ((MARGIN_TOP : ℚ) + (GRAPH_HEIGHT : ℚ)) ++ " L " ++
      fmt1 (to_svg_x min_time time_range p.timestamp) ++ "," ++
      fmt1 ((MARGIN_TOP : ℚ) + (GRAPH_HEIGHT : ℚ)) ++ " Z"
    ["<path d=\"" ++ fill_path ++ "\" fill=\"" ++ CUMULATIVE_FILL ++
       "\" fill-opacity=\"0.5\"/>",
     "<path d=\"" ++ path_data ++ "\" fill=\"none\" stroke=\"" ++
       CUMULATIVE_COLOR ++ "\" stroke-width=\"2.5\"/>"]

/-- The per-pod stroked lines of one color group (lines 855-866): pods are
enumerated in sorted order, colors cycle modulo the palette size, and pods
with no points are skipped. -/
def pod_line_parts (min_time time_range : ℚ) (ymax : ℤ)
    (per_pod_data : List (String × List TimeSeriesPoint))
    (pods : List String) (colors : List String) : List String :=
  ((pods.enum).map (fun ip =>
    let points := (per_pod_data.lookup ip.2).getD []
    if points.isEmpty then []
    else
      let color := colors.getD (ip.1 % colors.length) ""
      ["<path d=\"" ++ path_data_of min_time time_range ymax points ++
         "\" fill=\"none\" stroke=\"" ++ color ++
         "\" stroke-width=\"1.5\" stroke-opacity=\"0.7\"/>"])).flatten

/-- The x-axis time labels (lines 892-901); num_x_labels = 6. -/
def x_label_parts (min_time time_range : ℚ) : List String :=
  (List.range (6 + 1)).map (fun i =>
    let ts := min_time + ((i : ℚ) / 6) * time_range
    let x_pos := to_svg_x min_time time_range ts
    "<text x=\"" ++ fmt1 x_pos ++ "\" y=\"" ++
      intStr (MARGIN_TOP + GRAPH_HEIGHT + 20) ++
      "\" text-anchor=\"middle\" font-size=\"11\" fill=\"#888\">" ++
      hhmm ts ++ "</text>")

/-- The svg opening (lines 784-788). -/
def svg_header_parts : List String :=
  ["<svg viewBox=\"0 0 " ++ intStr WIDTH ++ " " ++ intStr HEIGHT ++
     "\" xmlns=\"http://www.w3.org/2000/svg\" ",
   "style=\"width:100%;max-width:" ++ intStr WIDTH ++
     "px;height:auto;font-family:-apple-system,BlinkMacSystemFont,sans-serif;\">",
   "<rect width=\"" ++ intStr WIDTH ++ "\" height=\"" ++ intStr HEIGHT ++
     "\" fill=\"#ffffff\" rx=\"12\"/>"]

/-- The two axes (lines 868-878). -/
def axes_parts : List String :=
  ["<line x1=\"" ++ intStr MARGIN_LEFT ++ "\" y1=\"" ++ intStr MARGIN_TOP ++
     "\" x2=\"" ++ intStr MARGIN_LEFT ++ "\" y2=\"" ++
     intStr (MARGIN_TOP + GRAPH_HEIGHT) ++
     "\" stroke=\"#1a1a1a\" stroke-width=\"1\"/>",
   "<line x1=\"" ++ intStr MARGIN_LEFT ++ "\" y1=\"" ++
     intStr (MARGIN_TOP + GRAPH_HEIGHT) ++ "\" x2=\"" ++
     intStr (WIDTH - MARGIN_RIGHT) ++ "\" y2=\"" ++
     intStr (MARGIN_TOP + GRAPH_HEIGHT) ++
     "\" stroke=\"#1a1a1a\" stroke-width=\"1\"/>"]

/-- The title (lines 880-884). -/
def title_part (title : String) : String :=
  "<text x=\"" ++ fmt1 ((WIDTH : ℚ) / 2) ++
    "\" y=\"24\" text-anchor=\"middle\" font-size=\"16\" font-weight=\"600\" fill=\"#1a1a1a\">" ++
    title ++ "</text>"

/-- The y-axis label (lines 886-890). -/
def y_label_part (y_label : String) : String :=
  "<text x=\"14\" y=\"" ++ fmt1 ((HEIGHT : ℚ) / 2) ++
    "\" text-anchor=\"middle\" font-size=\"12\" fill=\"#666\" transform=\"rotate(-90 14," ++
    fmt1 ((HEIGHT : ℚ) / 2) ++ ")\">" ++ y_label ++ "</text>"

/-- _empty_graph (lines 924-932). -/
def empty_graph (title message : String) : String :=
  "<svg viewBox=\"0 0 " ++ intStr WIDTH ++ " " ++ intStr HEIGHT ++
    "\" xmlns=\"http://www.w3.org/2000/svg\" style=\"width:100%;max-width:" ++
    intStr WIDTH ++ "px;height:auto;\">\n" ++
  "  <rect width=\"" ++ intStr WIDTH ++ "\" height=\"" ++ intStr HEIGHT ++
    "\" fill=\"#fafafa\" rx=\"12\"/>\n" ++
  "  <text x=\"" ++ fmt1 ((WIDTH : ℚ) / 2) ++
    "\" y=\"30\" text-anchor=\"middle\" font-size=\"14\" font-weight=\"600\" fill=\"#1a1a1a\">" ++
    title ++ "</text>\n" ++
  "  <rect x=\"40\" y=\"50\" width=\"" ++ intStr (WIDTH - 80) ++
    "\" height=\"" ++ intStr (HEIGHT - 80) ++
    "\" fill=\"#ffffff\" stroke=\"#e5e5e5\" rx=\"8\"/>\n" ++
  "  <text x=\"" ++ fmt1 ((WIDTH : ℚ) / 2) ++ "\" y=\"" ++
    fmt1 ((HEIGHT : ℚ) / 2) ++
    "\" text-anchor=\"middle\" font-size=\"13\" fill=\"#888\">" ++ message ++
    "</text>\n" ++
  "</svg>"

/-- Python min(p.timestamp for p in ps); only used on non-empty series. -/
def min_timestamp (ps : List TimeSeriesPoint) : ℚ :=
  match ps with
  | [] => 0
  | p :: rest => rest.foldl (fun a q => min a q.timestamp) p.timestamp

/-- Everything generate_resource_graph appends before the legend, joined in
order (lines 761-901): header, VU bands, grid, cumulative area and line,
per-pod lines by group, axes, title, y label, x labels. -/
def svg_before_legend (cumulative_points : List TimeSeriesPoint)
    (per_pod_data : List (String × List TimeSeriesPoint))
    (vu_stages : List VUStage) (title y_label : String) : String :=
  let min_time := min_timestamp cumulative_points
  let max_time := max_timestamp cumulative_points
  let time_range := if max_time > min_time then max_time - min_time else 1
  let ymax := y_max_of cumulative_points per_pod_data
  let keys := per_pod_data.map (fun kv => kv.1)
  String.join
    (svg_header_parts ++
     (vu_stages.enum.map
       (fun ia => stage_band_parts min_time max_time time_range ia.1 ia.2)).flatten ++
     grid_parts ymax ++
     cumulative_parts min_time time_range ymax cumulative_points ++
     pod_line_parts min_time time_range ymax per_pod_data (foo_pods_of keys)
       FOO_COLORS ++
     pod_line_parts min_time time_range ymax per_pod_data (bar_pods_of keys)
       BAR_COLORS ++
     pod_line_parts min_time time_range ymax per_pod_data (other_pods_of keys)
       FOO_COLORS ++
     axes_parts ++
     [title_part title] ++
     [y_label_part y_label] ++
     x_label_parts min_time time_range)

/-- Embedding of SVGGraphGenerator.generate_resource_graph (lines 738-922):
empty cumulative series renders the placeholder; otherwise the SVG body is
followed by the legend and the closing tag. -/
def generate_resource_graph (cumulative_points : List TimeSeriesPoint)
    (per_pod_data : List (String × List TimeSeriesPoint))
    (vu_stages : List VUStage) (title y_label : String) : String :=
  if cumulative_points.isEmpty then empty_graph title "No data available"
  else
    svg_before_legend cumulative_points per_pod_data vu_stages title y_label ++
      legend_render (legend_items (per_pod_data.map (fun kv => kv.1))) ++
      "</svg>"

theorem natDigits_ne_nil (n : Nat) : natDigits n ≠ [] := by
  rw [natDigits]
  split <;> simp

theorem digit_char_isDigit {k : Nat} (h : k < 10) :
    (Char.ofNat (48 + k)).isDigit = true := by
  interval_cases k <;> decide

theorem digit_char_val {k : Nat} (h : k < 10) :
    digitVal (Char.ofNat (48 + k)) = k := by
  interval_cases k <;> decide

theorem natDigits_all_digits (n : Nat) : ∀ c ∈ natDigits n, c.isDigit := by
  induction n using Nat.strong_induction_on with
  | _ n ih =>
    rw [natDigits]
    split
    · intro c hc
      simp only [List.mem_singleton] at hc
      subst hc
      exact digit_char_isDigit (by omega)
    · intro c hc
      rcases List.mem_append.mp hc with h1 | h2
      · exact ih (n / 10) (Nat.div_lt_self (by omega) (by omega)) c h1
      · simp only [List.mem_singleton] at h2
        subst h2
        exact digit_char_isDigit (Nat.mod_lt _ (by omega))

theorem digitsToNat_natDigits (n : Nat) : digitsToNat (natDigits n) = n := by
  induction n using Nat.strong_induction_on with
  | _ n ih =>
    rw [natDigits]
    split
    · rename_i h
      simp [digitsToNat, digit_char_val h]
    · rename_i h
      have ihd := ih (n / 10) (Nat.div_lt_self (by omega) (by omega))
      simp only [digitsToNat] at ihd ⊢
      rw [List.foldl_append]
      simp [ihd, digit_char_val (Nat.mod_lt n (show 0 < 10 by omega))]
      omega

theorem scanNum_append_digits (u : Char) (ds : List Char)
    (hds : ∀ c ∈ ds, c.isDigit) :
    ∀ (acc : Nat) (t : List Char),
      scanNum u (some acc) (ds ++ t) =
        scanNum u (some (ds.foldl (fun a c => 10 * a + digitVal c) acc)) t := by
  induction ds with
  | nil => intro acc t; simp
  | cons c cs ih =>
    intro acc t
    have hc : c.isDigit := hds c (by simp)
    rw [List.cons_append, scanNum, if_pos hc]
    simp only [List.foldl_cons]
    exact ih (fun d hd => hds d (by simp [hd])) (10 * acc + digitVal c) t

theorem scanNum_digits_run (u : Char) (n : Nat) (t : List Char) :
    scanNum u none (natDigits n ++ t) = scanNum u (some n) t := by
  obtain ⟨c, cs, hcc⟩ : ∃ c cs, natDigits n = c :: cs := by
    cases h : natDigits n with
    | nil => exact absurd h (natDigits_ne_nil n)
    | cons c cs => exact ⟨c, cs, rfl⟩
  have hall := natDigits_all_digits n
  rw [hcc] at hall
  have hc : c.isDigit := hall c (by simp)
  rw [hcc, List.cons_append, scanNum, if_pos hc]
  rw [scanNum_append_digits u cs (fun d hd => hall d (by simp [hd]))]
  congr 2
  have hv := digitsToNat_natDigits n
  rw [hcc] at hv
  simpa [digitsToNat] using hv

theorem scanNum_some_hit (u : Char) (acc : Nat) (t : List Char)
    (hu : u.isDigit = false) : scanNum u (some acc) (u :: t) = some acc := by
  rw [scanNum, if_neg (by simp [hu]), if_pos rfl]

theorem scanNum_some_miss (u c : Char) (acc : Nat) (t : List Char)
    (hc : c.isDigit = false) (hne : c ≠ u) :
    scanNum u (some acc) (c :: t) = scanNum u none t := by
  rw [scanNum, if_neg (by simp [hc]), if_neg hne]

/-- C4: Duration round-trip: for every non-negative integer number of seconds
s, parsing the string produced by the duration formatter yields s back, i.e.
parse_duration_to_seconds (seconds_to_duration_str s) = s. -/
theorem c4_duration_round_trip (s : Nat) :
    parse_duration_to_seconds (seconds_to_duration_str s) = s := by
  unfold seconds_to_duration_str
  by_cases h1 : s / 60 > 0 ∧ s % 60 > 0
  · rw [if_pos h1]
    have e1 : searchNumUnit 'm'
        (natDigits (s / 60) ++ 'm' :: (natDigits (s % 60) ++ ['s'])) =
        some (s / 60) := by
      unfold searchNumUnit
      rw [scanNum_digits_run, scanNum_some_hit _ _ _ (by decide)]
    have e2 : searchNumUnit 's'
        (natDigits (s / 60) ++ 'm' :: (natDigits (s % 60) ++ ['s'])) =
        some (s % 60) := by
      unfold searchNumUnit
      rw [scanNum_digits_run,
        scanNum_some_miss 's' 'm' _ _ (by decide) (by decide),
        scanNum_digits_run, scanNum_some_hit _ _ _ (by decide)]
    unfold parse_duration_to_seconds
    rw [e1, e2]
    show s / 60 * 60 + s % 60 = s
    omega
  · rw [if_neg h1]
    by_cases h2 : s / 60 > 0
    · rw [if_pos h2]
      have e1 : searchNumUnit 'm' (natDigits (s / 60) ++ ['m']) =
          some (s / 60) := by
        unfold searchNumUnit
        rw [scanNum_digits_run, scanNum_some_hit _ _ _ (by decide)]
      have e2 : searchNumUnit 's' (natDigits (s / 60) ++ ['m']) = none := by
        unfold searchNumUnit
        rw [scanNum_digits_run,
          scanNum_some_miss 's' 'm' _ _ (by decide) (by decide), scanNum]
      unfold parse_duration_to_seconds
      rw [e1, e2]
      show s / 60 * 60 + 0 = s
      omega
    · rw [if_neg h2]
      have e1 : searchNumUnit 'm' (natDigits (s % 60) ++ ['s']) = none := by
        unfold searchNumUnit
        rw [scanNum_digits_run,
          scanNum_some_miss 'm' 's' _ _ (by decide) (by decide), scanNum]
      have e2 : searchNumUnit 's' (natDigits (s % 60) ++ ['s']) =
          some (s % 60) := by
        unfold searchNumUnit
        rw [scanNum_digits_run, scanNum_some_hit _ _ _ (by decide)]
      unfold parse_duration_to_seconds
      rw [e1, e2]
      show 0 + s % 60 = s
      omega

theorem hasNumUnit_cons (u c : Char) {rest : List Char}
    (h : hasNumUnit u rest) : hasNumUnit u (c :: rest) := by
  obtain ⟨pre, ds, post, heq, hne, hdig⟩ := h
  exact ⟨c :: pre, ds, post, by simp [heq], hne, hdig⟩

theorem scanNum_sound (u : Char) (t : List Char) :
    (∀ acc v, scanNum u (some acc) t = some v →
      (∃ ds post, t = ds ++ u :: post ∧ ∀ c ∈ ds, c.isDigit) ∨ hasNumUnit u t) ∧
    (∀ v, scanNum u none t = some v → hasNumUnit u t) := by
  induction t with
  | nil =>
    constructor
    · intro acc v h
      rw [scanNum] at h
      exact absurd h (by simp)
    · intro v h
      rw [scanNum] at h
      exact absurd h (by simp)
  | cons c rest ih =>
    constructor
    · intro acc v h
      rw [scanNum] at h
      by_cases hc : c.isDigit
      · rw [if_pos hc] at h
        rcases ih.1 _ v h with ⟨ds, post, heq, hdig⟩ | hnum
        · refine Or.inl ⟨c :: ds, post, by simp [heq], ?_⟩
          intro d hd
          rcases List.mem_cons.mp hd with h' | h'
          · exact h' ▸ hc
          · exact hdig d h'
        · exact Or.inr (hasNumUnit_cons u c hnum)
      · rw [if_neg hc] at h
        by_cases hcu : c = u
        · exact Or.inl ⟨[], rest, by simp [hcu], by simp⟩
        · rw [if_neg hcu] at h
          exact Or.inr (hasNumUnit_cons u c (ih.2 v h))
    · intro v h
      rw [scanNum] at h
      by_cases hc : c.isDigit
      · rw [if_pos hc] at h
        rcases ih.1 _ v h with ⟨ds, post, heq, hdig⟩ | hnum
        · refine ⟨[], c :: ds, post, by simp [heq], by simp, ?_⟩
          intro d hd
          rcases List.mem_cons.mp hd with h' | h'
          · exact h' ▸ hc
          · exact hdig d h'
        · exact hasNumUnit_cons u c hnum
      · rw [if_neg hc] at h
        exact hasNumUnit_cons u c (ih.2 v h)

/-- C10: the duration parser is total and never raises: for every input
string it returns a non-negative integer, and for a string containing
neither a minutes component nor a seconds component (no digits-then-unit
substring) it returns 0 rather than failing. -/
theorem c10_parser_total_and_defaults :
    (∀ s : List Char, 0 ≤ parse_duration_to_seconds s) ∧
    (∀ s : List Char, ¬ hasNumUnit 'm' s → ¬ hasNumUnit 's' s →
      parse_duration_to_seconds s = 0) := by
  constructor
  · intro s
    exact Nat.zero_le _
  · intro s hm hs
    have h1 : searchNumUnit 'm' s = none := by
      cases h : searchNumUnit 'm' s with
      | none => rfl
      | some v => exact absurd ((scanNum_sound 'm' s).2 v h) hm
    have h2 : searchNumUnit 's' s = none := by
      cases h : searchNumUnit 's' s with
      | none => rfl
      | some v => exact absurd ((scanNum_sound 's' s).2 v h) hs
    unfold parse_duration_to_seconds
    rw [h1, h2]
    rfl

/-- Witness for C10 at the empty string. -/
theorem c10_parser_total_and_defaults_witness :
    0 ≤ parse_duration_to_seconds [] ∧ parse_duration_to_seconds [] = 0 := by
  have hnone : ∀ u : Char, ¬ hasNumUnit u [] := by
    rintro u ⟨pre, ds, post, h, hne, hdig⟩
    have hl := congrArg List.length h
    simp at hl
    omega
  exact ⟨c10_parser_total_and_defaults.1 [],
    c10_parser_total_and_defaults.2 [] (hnone 'm') (hnone 's')⟩

theorem extract_thresholds_foldl (ms : List (List Char × List Char)) :
    ∀ acc : Option (List Char) × Option (List Char),
      ms.foldl threshold_step acc =
        ((match lastDurationValue ms with
          | some v => some v
          | none => acc.1),
         (match lastFailedValue ms with
          | some v => some v
          | none => acc.2)) := by
  induction ms with
  | nil => intro acc; simp [lastDurationValue, lastFailedValue]
  | cons kv rest ih =>
    intro acc
    rw [List.foldl_cons, ih (threshold_step acc kv)]
    cases hdur : lastDurationValue rest <;>
      cases hfail : lastFailedValue rest <;>
      by_cases hd : isSubstr ("duration".data) kv.1 <;>
      by_cases hf : isSubstr ("failed".data) kv.1 <;>
      simp [lastDurationValue, lastFailedValue, threshold_step, hdur, hfail,
        hd, hf]

/-- C5: in threshold extraction, when several keys map to the same canonical
threshold kind, the recorded value is the one from the LAST matching key in
textual order (last-match-wins), for both the latency-percentile slot and the
failure-rate slot. -/
theorem c5_threshold_last_match_wins (ms : List (List Char × List Char)) :
    extract_thresholds ms = (lastDurationValue ms, lastFailedValue ms) := by
  rw [extract_thresholds, extract_thresholds_foldl]
  cases hdur : lastDurationValue ms <;> cases hfail : lastFailedValue ms <;>
    simp

/-- C3: when total_requests = 0 the computed error_rate is exactly 0
regardless of failed_requests; when total_requests > 0 it equals
failed_requests / total_requests. -/
theorem c3_error_rate_division (failed_requests total_requests : ℤ) :
    (total_requests = 0 → k6_error_rate failed_requests total_requests = 0) ∧
    (0 < total_requests →
      k6_error_rate failed_requests total_requests =
        (failed_requests : ℚ) / (total_requests : ℚ)) := by
  constructor
  · intro h
    simp [k6_error_rate, h]
  · intro h
    simp [k6_error_rate, h]

/-- Witness for C3 at total_requests = 0 (failed_requests = 7) and at
total_requests = 4 (failed_requests = 2). -/
theorem c3_error_rate_division_witness :
    k6_error_rate 7 0 = 0 ∧ k6_error_rate 2 4 = (2 : ℚ) / 4 :=
  ⟨(c3_error_rate_division 7 0).1 rfl,
   (c3_error_rate_division 2 4).2 (by norm_num)⟩

/-- C2 counterexample: the two backend queries are independent, so the code
can receive failed_requests = 5 and total_requests = 2, and then the computed
error rate is 5/2, outside [0, 1].  This refutes the claim as stated. -/
theorem c2_counterexample :
    k6_error_rate 5 2 = 5 / 2 ∧ ¬ (k6_error_rate 5 2 ≤ 1) := by
  constructor
  · norm_num [k6_error_rate]
  · norm_num [k6_error_rate]

/-- C2 (amended): the error rate lies in [0, 1] provided the backend returns
0 ≤ failed_requests ≤ total_requests; without that assumption the computed
value can leave the interval. -/
theorem c2_error_rate_unit_interval (failed_requests total_requests : ℤ)
    (h0 : 0 ≤ failed_requests) (h1 : failed_requests ≤ total_requests) :
    0 ≤ k6_error_rate failed_requests total_requests ∧
      k6_error_rate failed_requests total_requests ≤ 1 := by
  unfold k6_error_rate
  split
  · rename_i ht
    have htq : (0 : ℚ) < (total_requests : ℚ) := by exact_mod_cast ht
    constructor
    · exact div_nonneg (by exact_mod_cast h0) htq.le
    · rw [div_le_one htq]
      exact_mod_cast h1
  · norm_num

/-- Witness for C2 (amended) at failed_requests = 1, total_requests = 2. -/
theorem c2_error_rate_unit_interval_witness :
    0 ≤ k6_error_rate 1 2 ∧ k6_error_rate 1 2 ≤ 1 :=
  c2_error_rate_unit_interval 1 2 (by norm_num) (by norm_num)

/-- C7: for every set of per-entity resource snapshots, the cumulative avg
CPU and avg memory fields each equal the exact sum of the corresponding
per-entity avg values, and the cumulative max CPU and max memory fields
equal that same sum (not a maximum across entities). -/
theorem c7_cumulative_is_sum (pods : List PodResourceMetrics) :
    (cumulative_from pods).avg_cpu_millicores =
        (pods.map (fun p => p.avg_cpu_millicores)).sum ∧
    (cumulative_from pods).max_cpu_millicores =
        (pods.map (fun p => p.avg_cpu_millicores)).sum ∧
    (cumulative_from pods).avg_memory_mb =
        (pods.map (fun p => p.avg_memory_mb)).sum ∧
    (cumulative_from pods).max_memory_mb =
        (pods.map (fun p => p.avg_memory_mb)).sum := by
  have key : ∀ f : PodResourceMetrics → ℚ,
      pods.foldl (fun a p => a + f p) 0 = (pods.map f).sum := by
    intro f
    rw [List.sum_eq_foldl, List.foldl_map]
  refine ⟨?_, ?_, ?_, ?_⟩ <;> simp [cumulative_from, key]

theorem calculate_vu_stages_getElem :
    ∀ (stages : List K6Stage) (start : ℚ) (i : ℕ) (hi : i < stages.length),
      (calculate_vu_stages start stages)[i]? =
        some ⟨start + prefix_duration stages i,
              start + prefix_duration stages (i + 1),
              (stages.get ⟨i, hi⟩).target⟩ := by
  intro stages
  induction stages with
  | nil =>
    intro start i hi
    simp at hi
  | cons stage rest ih =>
    intro start i hi
    cases i with
    | zero =>
      simp [calculate_vu_stages, prefix_duration]
    | succ n =>
      rw [calculate_vu_stages]
      simp only [List.getElem?_cons_succ]
      rw [ih (start + (parse_duration_to_seconds stage.duration : ℚ)) n
        (by simpa using hi)]
      have hpre : ∀ j : ℕ, prefix_duration (stage :: rest) (j + 1) =
          (parse_duration_to_seconds stage.duration : ℚ) +
            prefix_duration rest j := by
        intro j
        simp [prefix_duration, List.take_succ_cons]
      rw [hpre n, hpre (n + 1)]
      simp [add_assoc]

/-- C6: with no detected test-activity window and a non-empty cumulative CPU
series, the synthesized anchor start equals the series' latest timestamp T
minus the plan's total declared duration D, and the stage windows are laid
out sequentially from that anchor: window i spans from anchor plus the sum
of the first i stage durations to anchor plus the sum of the first i+1
stage durations, carrying stage i's target. -/
theorem c6_alignment_fallback (cumulative_cpu : List TimeSeriesPoint)
    (stages : List K6Stage) (i : ℕ)
    (h : cumulative_cpu ≠ []) (hi : i < stages.length) :
    resolve_vu_stages none cumulative_cpu stages =
      calculate_vu_stages
        (max_timestamp cumulative_cpu - (test_duration_seconds stages : ℚ))
        stages ∧
    (resolve_vu_stages none cumulative_cpu stages)[i]? =
      some ⟨max_timestamp cumulative_cpu - (test_duration_seconds stages : ℚ)
              + prefix_duration stages i,
            max_timestamp cumulative_cpu - (test_duration_seconds stages : ℚ)
              + prefix_duration stages (i + 1),
            (stages.get ⟨i, hi⟩).target⟩ := by
  have hne : cumulative_cpu.isEmpty = false := by
    simpa [List.isEmpty_iff] using h
  have heq : resolve_vu_stages none cumulative_cpu stages =
      calculate_vu_stages
        (max_timestamp cumulative_cpu - (test_duration_seconds stages : ℚ))
        stages := by
    rw [resolve_vu_stages, if_neg (by simp [hne])]
  refine ⟨heq, ?_⟩
  rw [heq]
  exact calculate_vu_stages_getElem stages _ i hi

/-- Witness for C6: a single 30-second stage and a cumulative CPU series
ending at t = 100 give the anchor 70 and the window (70, 100). -/
theorem c6_alignment_fallback_witness :
    resolve_vu_stages none [⟨100, 1⟩] [⟨['3', '0', 's'], 5⟩] =
      calculate_vu_stages 70 [⟨['3', '0', 's'], 5⟩] ∧
    (resolve_vu_stages none [⟨100, 1⟩] [⟨['3', '0', 's'], 5⟩])[0]? =
      some ⟨70, 100, 5⟩ := by
  have h := c6_alignment_fallback [⟨100, 1⟩] [⟨['3', '0', 's'], 5⟩] 0
    (by decide) (by decide)
  have hD : test_duration_seconds [⟨['3', '0', 's'], 5⟩] = 30 := rfl
  have hTD : max_timestamp [⟨100, 1⟩] -
      (test_duration_seconds [⟨['3', '0', 's'], 5⟩] : ℚ) = 70 := by
    rw [hD]
    norm_num [max_timestamp]
  constructor
  · rw [h.1, hTD]
  · rw [h.2, hTD]
    simp [prefix_duration, List.take_succ_cons]
    rw [show parse_duration_to_seconds ['3', '0', 's'] = 30 from rfl]
    norm_num

theorem le_foldl_max (v : ℚ) (vs : List ℚ) : v ≤ vs.foldl max v := by
  induction vs generalizing v with
  | nil => simp
  | cons a t ih =>
    rw [List.foldl_cons]
    exact le_trans (le_max_left v a) (ih (max v a))

theorem mem_le_foldl_max (x : ℚ) (vs : List ℚ) :
    ∀ v : ℚ, x ∈ vs → x ≤ vs.foldl max v := by
  induction vs with
  | nil => intro v hx; simp at hx
  | cons a t ih =>
    intro v hx
    rw [List.foldl_cons]
    rcases List.mem_cons.mp hx with h | h
    · subst h
      exact le_trans (le_max_right v x) (le_foldl_max (max v x) t)
    · exact ih (max v a) h

theorem mem_all_values_iff (cumulative_points : List TimeSeriesPoint)
    (per_pod_data : List (String × List TimeSeriesPoint)) (x : ℚ) :
    x ∈ all_values_of cumulative_points per_pod_data ↔
      ((∃ q ∈ cumulative_points, q.value = x) ∨
        ∃ s ∈ per_pod_data, ∃ q ∈ s.2, q.value = x) := by
  have key : ∀ (ps : List (String × List TimeSeriesPoint)) (acc : List ℚ),
      x ∈ ps.foldl (fun a nv => a ++ nv.2.map (fun p => p.value)) acc ↔
        x ∈ acc ∨ ∃ s ∈ ps, ∃ q ∈ s.2, q.value = x := by
    intro ps
    induction ps with
    | nil => intro acc; simp
    | cons s t ih =>
      intro acc
      rw [List.foldl_cons, ih]
      simp only [List.mem_append, List.mem_map, List.mem_cons]
      constructor
      · rintro ((hacc | ⟨q, hq, hv⟩) | ⟨u, hu, q, hq, hv⟩)
        · exact Or.inl hacc
        · exact Or.inr ⟨s, Or.inl rfl, q, hq, hv⟩
        · exact Or.inr ⟨u, Or.inr hu, q, hq, hv⟩
      · rintro (hacc | ⟨u, hu | hu, q, hq, hv⟩)
        · exact Or.inl (Or.inl hacc)
        · exact Or.inl (Or.inr ⟨q, hu ▸ hq, hv⟩)
        · exact Or.inr ⟨u, hu, q, hq, hv⟩
  rw [all_values_of, key]
  simp only [List.mem_map]

theorem round_to_nearest_ten_eq (v : ℚ) :
    round_to_nearest v 10 = 10 * ⌊(v + 9) / 10⌋ := by
  rw [round_to_nearest, mul_comm]
  congr 2
  push_cast
  ring

theorem y_max_arith (m : ℚ) (hm : 0 ≤ m) :
    10 ≤ (if round_to_nearest (m * (11 / 10)) 10 = 0 then 10
        else round_to_nearest (m * (11 / 10)) 10) ∧
      m ≤ (((if round_to_nearest (m * (11 / 10)) 10 = 0 then 10
        else round_to_nearest (m * (11 / 10)) 10) : ℤ) : ℚ) := by
  have hre := round_to_nearest_ten_eq (m * (11 / 10))
  have hklb : (m * (11 / 10) + 9) / 10 - 1 <
      ((⌊(m * (11 / 10) + 9) / 10⌋ : ℤ) : ℚ) :=
    Int.sub_one_lt_floor _
  have hknn : 0 ≤ ⌊(m * (11 / 10) + 9) / 10⌋ := by
    apply Int.floor_nonneg.mpr
    apply div_nonneg _ (by norm_num)
    nlinarith
  by_cases h0 : round_to_nearest (m * (11 / 10)) 10 = 0
  · rw [if_pos h0]
    constructor
    · norm_num
    · rw [hre] at h0
      have hk0 : ⌊(m * (11 / 10) + 9) / 10⌋ = 0 := by omega
      have hlt : (m * (11 / 10) + 9) / 10 < ((1 : ℤ) : ℚ) :=
        Int.floor_lt.mp (by omega)
      push_cast at hlt ⊢
      nlinarith
  · rw [if_neg h0]
    rw [hre] at h0 ⊢
    have hk1 : 1 ≤ ⌊(m * (11 / 10) + 9) / 10⌋ := by omega
    constructor
    · omega
    · push_cast
      have hkq : (1 : ℚ) ≤ ((⌊(m * (11 / 10) + 9) / 10⌋ : ℤ) : ℚ) := by
        exact_mod_cast hk1
      by_cases hm10 : m ≤ 10
      · nlinarith
      · nlinarith

theorem to_svg_y_bounds (ymax : ℤ) (v : ℚ) (hpos : 0 < ymax) (h0 : 0 ≤ v)
    (h1 : v ≤ (ymax : ℚ)) :
    (MARGIN_TOP : ℚ) ≤ to_svg_y ymax v ∧
      to_svg_y ymax v ≤ (MARGIN_TOP : ℚ) + (GRAPH_HEIGHT : ℚ) := by
  have hq : (0 : ℚ) < (ymax : ℚ) := by exact_mod_cast hpos
  have hr0 : 0 ≤ v / (ymax : ℚ) := div_nonneg h0 hq.le
  have hr1 : v / (ymax : ℚ) ≤ 1 := (div_le_one hq).mpr h1
  unfold to_svg_y GRAPH_HEIGHT HEIGHT MARGIN_TOP MARGIN_BOTTOM
  norm_num
  constructor <;> nlinarith

/-- C1 counterexample: for a cumulative series holding the single value 9.5
(and no per-entity series), 9.5 · 1.1 = 10.45, whose round-UP to the next
multiple of 10 is 20; but the code's floor-based rounding gives y_max = 10.
So y_max does not equal the claimed scaled-and-rounded-up value. -/
theorem c1_counterexample :
    y_max_of [⟨0, 19 / 2⟩] [] = 10 ∧
    y_max_spec [⟨0, 19 / 2⟩] [] = 20 ∧
    y_max_of [⟨0, 19 / 2⟩] [] ≠ y_max_spec [⟨0, 19 / 2⟩] [] := by
  have hmax : max_value_of [⟨0, 19 / 2⟩] [] = 19 / 2 := rfl
  have hfl : ⌊((19 : ℚ) / 2 * (11 / 10) + 9) / 10⌋ = 1 := by
    rw [Int.floor_eq_iff]
    constructor <;> norm_num
  have hcl : ⌈(19 : ℚ) / 2 * (11 / 10) / 10⌉ = 2 := by
    rw [Int.ceil_eq_iff]
    constructor <;> norm_num
  have h1 : y_max_of [⟨0, 19 / 2⟩] [] = 10 := by
    rw [show y_max_of [⟨0, 19 / 2⟩] [] =
        (if round_to_nearest (max_value_of [⟨0, 19 / 2⟩] [] * (11 / 10)) 10 = 0
         then 10
         else round_to_nearest (max_value_of [⟨0, 19 / 2⟩] [] * (11 / 10)) 10)
      from rfl]
    rw [hmax, round_to_nearest_ten_eq, hfl]
    norm_num
  have h2 : y_max_spec [⟨0, 19 / 2⟩] [] = 20 := by
    rw [show y_max_spec [⟨0, 19 / 2⟩] [] =
        (if 10 * ⌈max_value_of [⟨0, 19 / 2⟩] [] * (11 / 10) / 10⌉ = 0 then 10
         else 10 * ⌈max_value_of [⟨0, 19 / 2⟩] [] * (11 / 10) / 10⌉)
      from rfl]
    rw [hmax, hcl]
    norm_num
  exact ⟨h1, h2, by rw [h1, h2]; norm_num⟩

/-- C1 (amended): y_max equals the floor-based rounding
10·⌊(1.1·max + 9)/10⌋ actually computed by the code (which agrees with
"round up to the next multiple of 10" only when 1.1·max is an integer),
with 10 substituted when that value is 0; and, provided every series value
is non-negative, y_max is a positive multiple of 10 and every rendered
point's vertical pixel position lies within the plot-area bounds
inclusive. -/
theorem c1_y_axis_scaling (cum : List TimeSeriesPoint)
    (pods : List (String × List TimeSeriesPoint)) (p : TimeSeriesPoint)
    (hne : cum ≠ [])
    (hcum : ∀ q ∈ cum, 0 ≤ q.value)
    (hpods : ∀ s ∈ pods, ∀ q ∈ s.2, 0 ≤ q.value)
    (hp : p ∈ cum ∨ ∃ s ∈ pods, p ∈ s.2) :
    y_max_of cum pods =
      (if 10 * ⌊(max_value_of cum pods * (11 / 10) + 9) / 10⌋ = 0 then 10
       else 10 * ⌊(max_value_of cum pods * (11 / 10) + 9) / 10⌋) ∧
    0 < y_max_of cum pods ∧
    (10 : ℤ) ∣ y_max_of cum pods ∧
    (MARGIN_TOP : ℚ) ≤ to_svg_y (y_max_of cum pods) p.value ∧
    to_svg_y (y_max_of cum pods) p.value ≤
      (MARGIN_TOP : ℚ) + (GRAPH_HEIGHT : ℚ) := by
  obtain ⟨v, vs, hav⟩ : ∃ v vs, all_values_of cum pods = v :: vs := by
    cases h : all_values_of cum pods with
    | nil =>
      exfalso
      obtain ⟨q, hq⟩ := List.exists_mem_of_ne_nil cum hne
      have hmem : q.value ∈ all_values_of cum pods :=
        (mem_all_values_iff cum pods q.value).mpr (Or.inl ⟨q, hq, rfl⟩)
      rw [h] at hmem
      simp at hmem
    | cons v vs => exact ⟨v, vs, rfl⟩
  have hmv : max_value_of cum pods = vs.foldl max v := by
    rw [max_value_of, hav]
  have hv_src : v ∈ all_values_of cum pods := by rw [hav]; simp
  have hv_nonneg : 0 ≤ v := by
    rcases (mem_all_values_iff cum pods v).mp hv_src with
      ⟨q, hq, hval⟩ | ⟨s, hs, q, hq, hval⟩
    · rw [← hval]
      exact hcum q hq
    · rw [← hval]
      exact hpods s hs q hq
  have hm_nonneg : 0 ≤ max_value_of cum pods := by
    rw [hmv]
    exact le_trans hv_nonneg (le_foldl_max v vs)
  have hpv : p.value ∈ all_values_of cum pods := by
    apply (mem_all_values_iff cum pods p.value).mpr
    rcases hp with h | ⟨s, hs, hq⟩
    · exact Or.inl ⟨p, h, rfl⟩
    · exact Or.inr ⟨s, hs, p, hq, rfl⟩
  have hple : p.value ≤ max_value_of cum pods := by
    rw [hmv]
    rw [hav] at hpv
    rcases List.mem_cons.mp hpv with h | h
    · rw [h]
      exact le_foldl_max v vs
    · exact mem_le_foldl_max p.value vs v h
  have hp0 : 0 ≤ p.value := by
    rcases hp with h | ⟨s, hs, hq⟩
    · exact hcum p h
    · exact hpods s hs p hq
  have harith := y_max_arith (max_value_of cum pods) hm_nonneg
  have hymax_eq : y_max_of cum pods =
      (if round_to_nearest (max_value_of cum pods * (11 / 10)) 10 = 0 then 10
       else round_to_nearest (max_value_of cum pods * (11 / 10)) 10) := rfl
  have hypos : 0 < y_max_of cum pods := by
    have h10 := harith.1
    rw [← hymax_eq] at h10
    omega
  have hpley : p.value ≤ ((y_max_of cum pods : ℤ) : ℚ) := by
    rw [hymax_eq]
    exact le_trans hple harith.2
  have hbounds := to_svg_y_bounds (y_max_of cum pods) p.value hypos hp0 hpley
  refine ⟨?_, hypos, ?_, hbounds.1, hbounds.2⟩
  · rw [hymax_eq, round_to_nearest_ten_eq]
  · rw [hymax_eq, round_to_nearest_ten_eq]
    split
    · norm_num
    · exact dvd_mul_right 10 _

/-- Witness for C1 (amended) at a single cumulative point of value 5. -/
theorem c1_y_axis_scaling_witness :
    y_max_of [⟨0, 5⟩] [] =
      (if 10 * ⌊(max_value_of [⟨0, 5⟩] [] * (11 / 10) + 9) / 10⌋ = 0 then 10
       else 10 * ⌊(max_value_of [⟨0, 5⟩] [] * (11 / 10) + 9) / 10⌋) ∧
    0 < y_max_of [⟨0, 5⟩] [] ∧
    (10 : ℤ) ∣ y_max_of [⟨0, 5⟩] [] ∧
    (MARGIN_TOP : ℚ) ≤
      to_svg_y (y_max_of [⟨0, 5⟩] []) (TimeSeriesPoint.mk 0 5).value ∧
    to_svg_y (y_max_of [⟨0, 5⟩] []) (TimeSeriesPoint.mk 0 5).value ≤
      (MARGIN_TOP : ℚ) + (GRAPH_HEIGHT : ℚ) :=
  c1_y_axis_scaling [⟨0, 5⟩] [] ⟨0, 5⟩ (by simp)
    (by
      intro q hq
      simp only [List.mem_singleton] at hq
      subst hq
      norm_num)
    (by intro s hs; simp at hs)
    (Or.inl (by simp))

theorem marker_pods_isEmpty_iff (keys : List String) (pat : List Char) :
    (((keys.filter (fun p => isSubstr pat (lower_data p))).mergeSort
      (fun a b => string_le a b)).isEmpty = true) ↔
      keys.any (fun p => isSubstr pat (lower_data p)) = false := by
  rw [List.isEmpty_iff, ← List.length_eq_zero, List.length_mergeSort,
    List.length_eq_zero, List.filter_eq_nil_iff]
  simp [List.any_eq_false]

theorem foo_pods_isEmpty_eq (keys : List String) :
    (foo_pods_of keys).isEmpty =
      !(keys.any (fun p => isSubstr ("foo".data) (lower_data p))) := by
  have hiff := marker_pods_isEmpty_iff keys ("foo".data)
  rw [show foo_pods_of keys =
      (keys.filter (fun p => isSubstr ("foo".data) (lower_data p))).mergeSort
        (fun a b => string_le a b) from rfl]
  cases h : keys.any (fun p => isSubstr ("foo".data) (lower_data p)) with
  | false =>
    rw [h] at hiff
    simp [hiff.mpr rfl]
  | true =>
    rw [h] at hiff
    simp only [Bool.not_true]
    rw [Bool.eq_false_iff]
    intro hh
    simpa using hiff.mp hh

theorem bar_pods_isEmpty_eq (keys : List String) :
    (bar_pods_of keys).isEmpty =
      !(keys.any (fun p => isSubstr ("bar".data) (lower_data p))) := by
  have hiff := marker_pods_isEmpty_iff keys ("bar".data)
  rw [show bar_pods_of keys =
      (keys.filter (fun p => isSubstr ("bar".data) (lower_data p))).mergeSort
        (fun a b => string_le a b) from rfl]
  cases h : keys.any (fun p => isSubstr ("bar".data) (lower_data p)) with
  | false =>
    rw [h] at hiff
    simp [hiff.mpr rfl]
  | true =>
    rw [h] at hiff
    simp only [Bool.not_true]
    rw [Bool.eq_false_iff]
    intro hh
    simpa using hiff.mp hh

/-- C8: for every renderer input with a non-empty cumulative series, the
generated image is the SVG body followed by the legend and the closing tag,
and the legend holds exactly one entry for the cumulative series plus one
entry per marker group present among the per-entity series ("foo"-marked,
"bar"-marked), each group entry using the group's first palette color. -/
theorem c8_legend_entries (cumulative_points : List TimeSeriesPoint)
    (per_pod_data : List (String × List TimeSeriesPoint))
    (vu_stages : List VUStage) (title y_label : String)
    (h : cumulative_points ≠ []) :
    generate_resource_graph cumulative_points per_pod_data vu_stages title
        y_label =
      svg_before_legend cumulative_points per_pod_data vu_stages title
          y_label ++
        legend_render (legend_items (per_pod_data.map (fun kv => kv.1))) ++
        "</svg>" ∧
    legend_items (per_pod_data.map (fun kv => kv.1)) =
      ("Cumulative", CUMULATIVE_COLOR) ::
        ((if (per_pod_data.map (fun kv => kv.1)).any
              (fun p => isSubstr ("foo".data) (lower_data p))
          then [("foo pods", FOO_COLORS.getD 0 "")] else []) ++
         (if (per_pod_data.map (fun kv => kv.1)).any
              (fun p => isSubstr ("bar".data) (lower_data p))
          then [("bar pods", BAR_COLORS.getD 0 "")] else [])) := by
  constructor
  · rw [generate_resource_graph,
      if_neg (by simpa [List.isEmpty_iff] using h)]
  · cases hfoo : (per_pod_data.map (fun kv => kv.1)).any
        (fun p => isSubstr ("foo".data) (lower_data p)) <;>
      cases hbar : (per_pod_data.map (fun kv => kv.1)).any
          (fun p => isSubstr ("bar".data) (lower_data p)) <;>
      simp [legend_items, foo_pods_isEmpty_eq, bar_pods_isEmpty_eq, hfoo,
        hbar]

/-- Witness for C8 at one cumulative point and one "foo"-marked pod. -/
theorem c8_legend_entries_witness :
    generate_resource_graph [⟨0, 1⟩] [("foo-1", [⟨0, 1⟩])] [] "t" "y" =
      svg_before_legend [⟨0, 1⟩] [("foo-1", [⟨0, 1⟩])] [] "t" "y" ++
        legend_render (legend_items ["foo-1"]) ++ "</svg>" ∧
    legend_items ["foo-1"] =
      ("Cumulative", CUMULATIVE_COLOR) ::
        ((if (["foo-1"] : List String).any
              (fun p => isSubstr ("foo".data) (lower_data p))
          then [("foo pods", FOO_COLORS.getD 0 "")] else []) ++
         (if (["foo-1"] : List String).any
              (fun p => isSubstr ("bar".data) (lower_data p))
          then [("bar pods", BAR_COLORS.getD 0 "")] else [])) :=
  c8_legend_entries [⟨0, 1⟩] [("foo-1", [⟨0, 1⟩])] [] "t" "y" (by simp)

/-- C9: the graph renderer is deterministic: two calls with identical
cumulative points, per-entity data, stage windows, title and axis label
return identical image strings (the embedding is a pure function of exactly
these five inputs). -/
theorem c9_renderer_deterministic
    (cumA cumB : List TimeSeriesPoint)
    (podA podB : List (String × List TimeSeriesPoint))
    (vuA vuB : List VUStage) (tA tB yA yB : String)
    (hc : cumA = cumB) (hp : podA = podB) (hv : vuA = vuB) (ht : tA = tB)
    (hy : yA = yB) :
    generate_resource_graph cumA podA vuA tA yA =
      generate_resource_graph cumB podB vuB tB yB := by
  rw [hc, hp, hv, ht, hy]

/-- Witness for C9 at a concrete input. -/
theorem c9_renderer_deterministic_witness :
    generate_resource_graph [⟨0, 1⟩] [("foo-1", [⟨0, 1⟩])] [] "CPU" "m" =
      generate_resource_graph [⟨0, 1⟩] [("foo-1", [⟨0, 1⟩])] [] "CPU" "m" :=
  c9_renderer_deterministic _ _ _ _ _ _ _ _ _ _ rfl rfl rfl rfl rfl
